import Mathlib

/-!
Verification of the i3-resurrect command-line tool (files `i3_resurrect/main.py`
and `i3_resurrect/util.py`), as a shallow embedding in Lean 4.

Modelling conventions:
* Python strings are Lean `String`; character lists are accessed through `.data`.
* The CLI `target` option is `Option String` (`none`, `some "layout_only"` or
  `some "programs_only"`), mirroring click's `flag_value` mechanism, and is
  compared with the same inequality tests the Python code uses.
* Filesystem and window-manager side effects are recorded in a trace of `Eff`
  values; the directory contents are a `List String` of the file names present.
* A call to `json.loads(file.read_text())` is modelled by its outcome, an
  `Except Unit d` value carried in the input (`.error` = unreadable file or
  malformed JSON, which raises in Python); `sys.exit(n)` and uncaught Python
  exceptions are the `Outcome` of a run.
-/

set_option autoImplicit false

namespace I3Resurrect

/-- Python exceptions that the modelled code can raise (uncaught). -/
inductive PyExn where
  | jsonDecodeError
  | indexError
  | fileNotFoundError
  deriving DecidableEq

/-- Observable side effects of a run: window-manager commands, stderr output,
layout/program module calls, directory creation, and snapshot-file reads. -/
inductive Eff where
  | i3cmd (cmd : String)
  | eprintMsg (msg : String)
  | layoutRestore (ws : String)
  | programsRestore (ws : String) (clear : Bool)
  | layoutSave (ws : String)
  | programsSave (ws : String)
  | mkdirP
  | readLayoutFile
  | readProgramsFile
  | readLayoutWs (ws : String)
  | readProgramsWs (ws : String)
  | sleep
  deriving DecidableEq

/-- How a modelled invocation terminates: normal return (exit code 0),
`sys.exit code`, or an uncaught Python exception (process exit code 1). -/
inductive Outcome where
  | finished
  | exited (code : Nat)
  | pyError (e : PyExn)
  deriving DecidableEq

/-- The parsed layout JSON document, reduced to the only key the orchestrator
inspects: the optional `name` entry (`'name' in saved_layout`). -/
structure LayoutDoc where
  name : Option String
  deriving DecidableEq

/-! ## util.py -/

/-- The blacklist string `'/\\:*"<>|'` of `util.filename_filter`. -/
def blacklist : List Char := ['/', '\\', ':', '*', '"', '<', '>', '|']

/-- One step `filename.replace(char, '')`: removing every occurrence of a
single character is filtering it out. -/
def removeChar (s : List Char) (c : Char) : List Char :=
  s.filter (fun x => x ≠ c)

/-- `util.filename_filter`: `None` is returned unchanged; otherwise each
blacklisted character is removed in turn (`for char in blacklist: ... replace`). -/
def filename_filter : Option String → Option String
  | none => none
  | some s => some ⟨blacklist.foldl removeChar s.data⟩

/-- Does `pre ++ <any one char> ++ post` match at the head of `s`?  This is the
anchored form of the regex `pre.post` (the `.` is an unescaped wildcard in
`util.list_filenames`' patterns). -/
def patHere (pre post : List Char) (s : List Char) : Bool :=
  pre.isPrefixOf s &&
    (match s.drop pre.length with
     | [] => false
     | _ :: rest => post.isPrefixOf rest)

/-- `re.search` of the pattern `pre.post` in `s`: the pattern may match at any
position. -/
def patSomewhere (pre post : List Char) : List Char → Bool
  | [] => patHere pre post []
  | c :: rest => patHere pre post (c :: rest) || patSomewhere pre post rest

/-- `re.compile(r'.*_layout.json').search(f)` as a Boolean test. -/
def searchLayout (f : String) : Bool :=
  patSomewhere "_layout".data "json".data f.data

/-- `re.compile(r'.*_programs.json').search(f)` as a Boolean test. -/
def searchProgs (f : String) : Bool :=
  patSomewhere "_programs".data "json".data f.data

/-- The pairing loop of `util.list_filenames`:
`for n, layout_filename in enumerate(layout_filenames): ... programs_filenames[n]`.
Indexing past the end of `ps` raises `IndexError`. -/
def pairUp (ls ps : List String) (n : Nat) :
    Except PyExn (List (String × String)) :=
  match ls with
  | [] => .ok []
  | l :: rest =>
    match ps[n]? with
    | none => .error .indexError
    | some p =>
      match pairUp rest ps (n + 1) with
      | .ok acc => .ok ((l, p) :: acc)
      | .error e => .error e

/-- `util.list_filenames`, over the list of file names present in the
directory: filter the layout and programs file names, then pair them up
positionally. -/
def list_filenames (filenames : List String) :
    Except PyExn (List (String × String)) :=
  let layout_filenames := filenames.filter searchLayout
  let programs_filenames := filenames.filter searchProgs
  pairUp layout_filenames programs_filenames 0

/-! ## Filesystem operations of main.py (`delete`, `clear_directory`, `remove`) -/

/-- `Path.unlink()` on a directory state: removes the file, raises
`FileNotFoundError` when it is absent.  The state is returned together with
the exception, if any, so that deletions performed before a raise persist. -/
def unlinkSt (files : List String) (nm : String) :
    List String × Option PyExn :=
  if nm ∈ files then (files.erase nm, none)
  else (files, some .fileNotFoundError)

/-- `main.delete(layout_file, programs_file, target)`.  Note the guard
`target != 'programs_only'` protects the unlink of the *programs* file and
`target != 'layout_only'` the unlink of the *layout* file, exactly as in the
source. -/
def delete (files : List String) (layout_file programs_file : String)
    (target : Option String) : List String × Option PyExn :=
  let s1 := if target ≠ some "programs_only" then unlinkSt files programs_file
    else (files, none)
  match s1.2 with
  | some e => (s1.1, some e)
  | none =>
    if target ≠ some "layout_only" then unlinkSt s1.1 layout_file
    else (s1.1, none)

/-- The loop of `main.clear_directory`: delete each pair returned by
`util.list_filenames` in order; an exception stops the loop. -/
def deleteLoop (pairs : List (String × String)) (files : List String)
    (target : Option String) : List String × Option PyExn :=
  match pairs with
  | [] => (files, none)
  | (lf, pf) :: rest =>
    match delete files lf pf target with
    | (files1, none) => deleteLoop rest files1 target
    | (files1, some e) => (files1, some e)

/-- `main.clear_directory(directory, target)`. -/
def clear_directory (files : List String) (target : Option String) :
    List String × Option PyExn :=
  match list_filenames files with
  | .error e => (files, some e)
  | .ok pairs => deleteLoop pairs files target

/-- The file name `f'workspace_{workspace_id}_layout.json'` built by
`main.remove` after `util.filename_filter`. -/
def layoutFilename (workspace_id : String) : String :=
  "workspace_" ++ ((filename_filter (some workspace_id)).getD "") ++
    "_layout.json"

/-- The file name `f'workspace_{workspace_id}_programs.json'` built by
`main.remove` after `util.filename_filter`. -/
def programsFilename (workspace_id : String) : String :=
  "workspace_" ++ ((filename_filter (some workspace_id)).getD "") ++
    "_programs.json"

/-- The body of `main.remove`'s per-workspace loop for one explicitly named
workspace: build the two snapshot file names and call `delete`. -/
def removeWorkspaceFiles (files : List String) (workspace_id : String)
    (target : Option String) : List String × Option PyExn :=
  delete files (layoutFilename workspace_id) (programsFilename workspace_id)
    target

/-! ## Window-manager command strings -/

/-- The f-string `f'workspace --no-auto-back-and-forth {workspace_name}'`
(main.py lines 108, 200 and 274). -/
def workspaceSwitchCmd (name : String) : String :=
  "workspace --no-auto-back-and-forth " ++ name

/-- The f-string of the numeric branch of `load` (main.py lines 271-272); the
backslash line continuation keeps the next source line's 16 leading spaces in
the string. -/
def workspaceSwitchCmdNumeric (name : String) : String :=
  "workspace --no-auto-back-and-forth number                 " ++ name

/-- The flag whose presence makes a workspace switch leave the back-and-forth
history unchanged. -/
def noAutoBackAndForthFlag : String :=
  "--no-auto-back-and-forth"

/-! ## main.restore_workspace and the restore command -/

/-- `main.restore_workspace(i3, saved_layout, saved_programs, target, clear)`.
Returns early when `saved_layout == None`; prints an error and calls
`sys.exit(1)` when the layout document has no `name` key; otherwise switches
workspace and performs the layout / programs restoration selected by
`target`. -/
def restore_workspace (saved_layout : Option LayoutDoc)
    (target : Option String) (clear : Bool) : List Eff × Outcome :=
  match saved_layout with
  | none => ([], .finished)
  | some l =>
    match l.name with
    | none => ([.eprintMsg "Workspace name not found."], .exited 1)
    | some workspace_name =>
      ([.i3cmd (workspaceSwitchCmd workspace_name)] ++
        (if target ≠ some "programs_only"
         then [.layoutRestore workspace_name] else []) ++
        (if target ≠ some "layout_only"
         then [.programsRestore workspace_name clear] else []),
       .finished)

/-- The session branch of `main.restore_workspaces` (lines 172-181): for each
`(layout_file, programs_file)` pair, parse the layout file (an unreadable or
malformed file raises through `json.loads`), parse the programs file unless
`target == 'layout_only'`, then call `restore_workspace`.  Each element of
`files` carries the parse outcome of its two files. -/
def restoreSessionLoop
    (files : List (Except Unit LayoutDoc × Except Unit Unit))
    (target : Option String) (clear : Bool) : List Eff × Outcome :=
  match files with
  | [] => ([], .finished)
  | (lf, pf) :: rest =>
    match lf with
    | .error _ => ([.readLayoutFile], .pyError .jsonDecodeError)
    | .ok saved_layout =>
      let readP : List Eff × Option PyExn :=
        if target ≠ some "layout_only" then
          match pf with
          | .error _ => ([.readProgramsFile], some .jsonDecodeError)
          | .ok _ => ([.readProgramsFile], none)
        else ([], none)
      match readP.2 with
      | some e => ([.readLayoutFile] ++ readP.1, .pyError e)
      | none =>
        match restore_workspace (some saved_layout) target clear with
        | (t, .finished) =>
          match restoreSessionLoop rest target clear with
          | (t', o') => ([.readLayoutFile] ++ readP.1 ++ t ++ t', o')
        | (t, o) => ([.readLayoutFile] ++ readP.1 ++ t, o)

/-- Python's `str.isdigit` restricted to ASCII digits. -/
def isdigit (s : String) : Bool :=
  !s.data.isEmpty && s.data.all Char.isDigit

/-- The single-workspace branch of `main.restore_workspaces` (lines 182-192):
for each workspace id, check the numeric form when requested, read the saved
layout via `layout.read` (modelled by the oracle `readLayout`, `none` when the
file is absent) and the saved programs via `programs.read` (oracle
`readProgs`), then call `restore_workspace`. -/
def restoreSingleLoop (ws : List String) (numeric : Bool)
    (readLayout : String → Option LayoutDoc)
    (target : Option String) (clear : Bool) : List Eff × Outcome :=
  match ws with
  | [] => ([], .finished)
  | w :: rest =>
    if numeric && !isdigit w then
      ([.eprintMsg "Invalid workspace number."], .exited 1)
    else
      let readP : List Eff :=
        if target ≠ some "layout_only" then [.readProgramsWs w] else []
      match restore_workspace (readLayout w) target clear with
      | (t, .finished) =>
        match restoreSingleLoop rest numeric readLayout target clear with
        | (t', o') => ([.readLayoutWs w] ++ readP ++ t ++ t', o')
      | (t, o) => ([.readLayoutWs w] ++ readP ++ t, o)

/-- `main.restore_workspaces` (the `restore` command), lines 151-200.
`focused_workspace` / `focusedNum` are the name and number of the currently
focused workspace reported by i3; `sessionFiles` is the session directory's
content as parse outcomes; `readLayout` is the `layout.read` oracle for the
single-workspace branch. -/
def restore_workspaces (workspace session numeric focus : Bool)
    (target : Option String) (clear : Bool)
    (focused_workspace focusedNum : String) (workspaces : List String)
    (sessionFiles : List (Except Unit LayoutDoc × Except Unit Unit))
    (readLayout : String → Option LayoutDoc) : List Eff × Outcome :=
  let ws := if workspaces.isEmpty then
      [if numeric then focusedNum else focused_workspace]
    else workspaces
  let core : List Eff × Outcome :=
    if session then restoreSessionLoop sessionFiles target clear
    else if workspace then restoreSingleLoop ws numeric readLayout target clear
    else ([.eprintMsg "Either --workspace or --session should be specified."],
          .exited 1)
  match core with
  | (t, .finished) =>
    if focus then
      (t ++ [.sleep, .i3cmd (workspaceSwitchCmd focused_workspace)], .finished)
    else (t, .finished)
  | other => other

/-! ## main.load_workspaces (the load command) -/

/-- `main.load_workspaces` (lines 230-282).  `readLayout` is the outcome of
`layout.read(workspace_layout, directory)` (`none` when absent, which makes
the command exit 1). -/
def load_workspaces (workspace numeric : Bool) (target : Option String)
    (workspace_layout : String) (target_workspaceArg : Option String)
    (focusedName focusedNum : String) (readLayout : Option LayoutDoc)
    (clear : Bool) : List Eff × Outcome :=
  if numeric && !isdigit workspace_layout then
    ([.eprintMsg "Invalid workspace number."], .exited 1)
  else
    let tw : Option String :=
      if numeric then
        match target_workspaceArg with
        | none => some focusedNum
        | some t => if isdigit t then some t else none
      else some focusedName
    match tw with
    | none => ([.eprintMsg "Invalid workspace number."], .exited 1)
    | some target_workspace =>
      if !workspace then
        ([.eprintMsg "--workspace option should be specified."], .exited 1)
      else
        match readLayout with
        | none => ([.readLayoutWs workspace_layout], .exited 1)
        | some _ =>
          let readP : List Eff :=
            if target ≠ some "layout_only"
            then [.readProgramsWs workspace_layout] else []
          let cmd :=
            if numeric then workspaceSwitchCmdNumeric target_workspace
            else workspaceSwitchCmd target_workspace
          ([.readLayoutWs workspace_layout] ++ readP ++ [.i3cmd cmd] ++
            (if target ≠ some "programs_only"
             then [.layoutRestore target_workspace] else []) ++
            (if target ≠ some "layout_only"
             then [.programsRestore target_workspace clear] else []),
           .finished)

/-! ## main.save_workspace (the save command) -/

/-- `main.save_workspace` (lines 56-94).  `dirExists` is `os.path.isdir` of
the target directory before the call; `dirFiles` its contents; `sessionList`
the result of `layout.list(i3, numeric)`.  The result carries the effect
trace, the outcome, and the directory contents at the moment the run ends
(file writes by `layout.save` / `programs.save` are traced as effects only). -/
def save_workspace (workspace session clear : Bool) (target : Option String)
    (dirExists : Bool) (dirFiles : List String) (workspacesArg : List String)
    (focusedName : String) (sessionList : List String) :
    List Eff × Outcome × List String :=
  let workspaces0 := if workspacesArg.isEmpty then [focusedName]
    else workspacesArg
  match (if clear && dirExists then clear_directory dirFiles target
         else (dirFiles, none)) with
  | (dirAfter, some e) => ([.mkdirP], .pyError e, dirAfter)
  | (dirAfter, none) =>
    if !session && !workspace then
      ([.mkdirP,
        .eprintMsg "Either --workspace or --session should be specified."],
       .exited 1, dirAfter)
    else
      let ws := if session then sessionList else workspaces0
      ([.mkdirP] ++ ws.flatMap (fun w =>
          (if target ≠ some "programs_only" then [.layoutSave w] else []) ++
          (if target ≠ some "layout_only" then [.programsSave w] else [])),
       .finished, dirAfter)

/-! ## Helper lemmas -/

/-- Equality of `Except` values is decidable when both components' is. -/
instance {ε α : Type} [DecidableEq ε] [DecidableEq α] :
    DecidableEq (Except ε α) := fun a b =>
  match a, b with
  | .ok x, .ok y =>
    if h : x = y then .isTrue (by rw [h])
    else .isFalse (fun hc => h (Except.ok.inj hc))
  | .error x, .error y =>
    if h : x = y then .isTrue (by rw [h])
    else .isFalse (fun hc => h (Except.error.inj hc))
  | .ok _, .error _ => .isFalse (fun hc => Except.noConfusion hc)
  | .error _, .ok _ => .isFalse (fun hc => Except.noConfusion hc)

/-- Removing the characters of `bl` one at a time is filtering out `bl`. -/
theorem foldl_removeChar (bl : List Char) (s : List Char) :
    bl.foldl removeChar s = s.filter (fun c => decide (c ∉ bl)) := by
  induction bl generalizing s with
  | nil => simp [List.foldl]
  | cons b bl ih =>
    show bl.foldl removeChar (removeChar s b) = _
    rw [ih, removeChar, List.filter_filter]
    refine List.filter_congr (fun a _ => ?_)
    by_cases h1 : a = b <;> by_cases h2 : a ∈ bl <;> simp [h1, h2]

/-- `filename_filter` on a present string is the blacklist filter. -/
theorem filename_filter_some (s : String) :
    filename_filter (some s) =
      some ⟨s.data.filter (fun c => decide (c ∉ blacklist))⟩ := by
  simp [filename_filter, foldl_removeChar]

/-- `pairUp` succeeds with the positional zip when `ps` is long enough. -/
theorem pairUp_ok (ls : List String) :
    ∀ (ps : List String) (n : Nat), ls.length + n ≤ ps.length →
      pairUp ls ps n = .ok (ls.zip (ps.drop n)) := by
  induction ls with
  | nil => intro ps n _; simp [pairUp]
  | cons l rest ih =>
    intro ps n h
    have hn : n < ps.length := by simp at h; omega
    have hrec : rest.length + (n + 1) ≤ ps.length := by simp at h ⊢; omega
    rw [pairUp, List.getElem?_eq_getElem hn, ih ps (n + 1) hrec,
      List.drop_eq_getElem_cons hn]
    rfl

/-- `pairUp` raises `IndexError` when `ps` runs out before `ls` does. -/
theorem pairUp_err (ls : List String) :
    ∀ (ps : List String) (n : Nat), ps.length < ls.length + n → ls ≠ [] →
      pairUp ls ps n = .error .indexError := by
  induction ls with
  | nil => intro ps n _ hne; exact absurd rfl hne
  | cons l rest ih =>
    intro ps n h _
    by_cases hn : n < ps.length
    · have hrest : rest ≠ [] := by
        intro he
        subst he
        simp at h
        omega
      rw [pairUp, List.getElem?_eq_getElem hn,
        ih ps (n + 1) (by simp at h ⊢; omega) hrest]
    · rw [pairUp, List.getElem?_eq_none (by omega)]

/-- Full characterization of `util.list_filenames`: positional zip of the two
filtered name lists when they align, `IndexError` when the layout list is the
longer one. -/
theorem list_filenames_eq (fs : List String) :
    list_filenames fs =
      if (fs.filter searchLayout).length ≤ (fs.filter searchProgs).length
      then .ok ((fs.filter searchLayout).zip (fs.filter searchProgs))
      else .error .indexError := by
  unfold list_filenames
  split
  · next h => rw [pairUp_ok _ _ 0 (by omega)]; rfl
  · next h =>
    refine pairUp_err _ _ 0 (by omega) ?_
    intro he
    rw [he] at h
    simp at h

/-- `delete` raises nothing when both files are present and distinct, and
every other file survives it. -/
theorem delete_none (files : List String) (lf pf : String)
    (target : Option String) (hlf : lf ∈ files) (hpf : pf ∈ files)
    (hne : lf ≠ pf) :
    (delete files lf pf target).2 = none ∧
    ∀ x ∈ files, x ≠ lf → x ≠ pf → x ∈ (delete files lf pf target).1 := by
  by_cases h1 : target = some "programs_only" <;>
    by_cases h2 : target = some "layout_only"
  · rw [h1] at h2
    exact absurd h2 (by decide)
  · have hlf1 : lf ∈ files := hlf
    refine ⟨by simp [delete, unlinkSt, h1, h2, hlf1], ?_⟩
    intro x hx hxl _
    simp [delete, unlinkSt, h1, h2, hlf1]
    exact (List.mem_erase_of_ne hxl).mpr hx
  · refine ⟨by simp [delete, unlinkSt, h1, h2, hpf], ?_⟩
    intro x hx _ hxp
    simp [delete, unlinkSt, h1, h2, hpf]
    exact (List.mem_erase_of_ne hxp).mpr hx
  · have hlf1 : lf ∈ files.erase pf := (List.mem_erase_of_ne hne).mpr hlf
    refine ⟨by simp [delete, unlinkSt, h1, h2, hpf, hlf1], ?_⟩
    intro x hx hxl hxp
    simp [delete, unlinkSt, h1, h2, hpf, hlf1]
    exact (List.mem_erase_of_ne hxl).mpr ((List.mem_erase_of_ne hxp).mpr hx)

/-- The files mentioned by a list of pairs, in pair order. -/
def pairFlat (pairs : List (String × String)) : List String :=
  pairs.flatMap (fun p => [p.1, p.2])

theorem mem_pairFlat_zip {x : String} (u v : List String)
    (h : x ∈ pairFlat (u.zip v)) : x ∈ u ∨ x ∈ v := by
  rcases List.mem_flatMap.mp h with ⟨p, hp, hx⟩
  have hmem := List.of_mem_zip hp
  simp only [List.mem_cons, List.not_mem_nil, or_false] at hx
  rcases hx with hx | hx
  · exact .inl (hx ▸ hmem.1)
  · exact .inr (hx ▸ hmem.2)

theorem zip_pairFlat_nodup :
    ∀ (u v : List String), u.Nodup → v.Nodup →
      (∀ x, x ∈ u → x ∈ v → False) → (pairFlat (u.zip v)).Nodup := by
  intro u
  induction u with
  | nil => intro v _ _ _; simp [pairFlat]
  | cons a u ih =>
    intro v hu hv hdisj
    match v with
    | [] => simp [pairFlat]
    | b :: v =>
      have flat_eq : pairFlat ((a :: u).zip (b :: v)) =
          a :: b :: pairFlat (u.zip v) := by simp [pairFlat]
      rw [flat_eq]
      have hmem : ∀ x, x ∈ pairFlat (u.zip v) → x ∈ u ∨ x ∈ v :=
        fun x hx => mem_pairFlat_zip u v hx
      refine List.nodup_cons.mpr ⟨?_, List.nodup_cons.mpr ⟨?_, ?_⟩⟩
      · intro hx
        simp only [List.mem_cons] at hx
        rcases hx with hx | hx
        · exact hdisj a (by simp) (by simp [hx])
        · rcases hmem a hx with h | h
          · exact (List.nodup_cons.mp hu).1 h
          · exact hdisj a (by simp) (by simp [h])
      · intro hx
        rcases hmem b hx with h | h
        · exact hdisj b (by simp [h]) (by simp)
        · exact (List.nodup_cons.mp hv).1 h
      · exact ih v (List.nodup_cons.mp hu).2 (List.nodup_cons.mp hv).2
          (fun x hxu hxv => hdisj x (by simp [hxu]) (by simp [hxv]))

/-- The loop of `clear_directory` raises nothing when the pairs name distinct
files that are all present. -/
theorem deleteLoop_none (target : Option String) :
    ∀ (pairs : List (String × String)) (files : List String),
      (pairFlat pairs).Nodup → (∀ x ∈ pairFlat pairs, x ∈ files) →
      (deleteLoop pairs files target).2 = none := by
  intro pairs
  induction pairs with
  | nil => intro files _ _; rfl
  | cons p rest ih =>
    intro files hnd hmem
    obtain ⟨lf, pf⟩ := p
    have flat_eq : pairFlat ((lf, pf) :: rest) =
        lf :: pf :: pairFlat rest := by simp [pairFlat]
    rw [flat_eq] at hnd hmem
    have hlf : lf ∈ files := hmem lf (by simp)
    have hpf : pf ∈ files := hmem pf (by simp)
    have hne : lf ≠ pf := by
      intro he
      exact (List.nodup_cons.mp hnd).1 (by simp [he])
    have hdel := delete_none files lf pf target hlf hpf hne
    rcases hdelete : delete files lf pf target with ⟨files1, e⟩
    rw [hdelete] at hdel
    rcases hdel with ⟨he, hpres⟩
    cases he
    rw [deleteLoop, hdelete]
    refine ih files1 (List.nodup_cons.mp (List.nodup_cons.mp hnd).2).2 ?_
    intro x hx
    refine hpres x (hmem x (by simp [hx])) ?_ ?_
    · intro he
      exact (List.nodup_cons.mp hnd).1 (by simp [he ▸ hx])
    · intro he
      exact (List.nodup_cons.mp (List.nodup_cons.mp hnd).2).1 (he ▸ hx)

/-- `clear_directory` succeeds exactly when the layout listing is no longer
than the programs listing (given distinct file names and patterns that do not
overlap on them); otherwise it raises `IndexError`. -/
theorem clear_directory_spec (files : List String) (target : Option String)
    (hnd : files.Nodup)
    (hdisj : ∀ f ∈ files, (searchLayout f && searchProgs f) = false) :
    if (files.filter searchLayout).length ≤ (files.filter searchProgs).length
    then (clear_directory files target).2 = none
    else (clear_directory files target).2 = some PyExn.indexError := by
  split
  · next h =>
    rw [clear_directory, list_filenames_eq, if_pos h]
    refine deleteLoop_none target _ files ?_ ?_
    · refine zip_pairFlat_nodup _ _ (hnd.filter _) (hnd.filter _) ?_
      intro x hxl hxp
      have h1 := (List.mem_filter.mp hxl).2
      have h2 := (List.mem_filter.mp hxp).2
      have := hdisj x (List.mem_filter.mp hxl).1
      rw [h1, h2] at this
      cases this
    · intro x hx
      rcases mem_pairFlat_zip _ _ hx with h | h
      · exact (List.mem_filter.mp h).1
      · exact (List.mem_filter.mp h).1
  · next h =>
    rw [clear_directory, list_filenames_eq, if_neg h]

/-! ## Claims -/

/-- C8: `filename_filter` removes exactly the characters `/ \ : * " < > |`
from its input; `filename_filter "a/b:c" = "abc"` and
`filename_filter None = None`. -/
theorem claim_C8_filename_filter :
    filename_filter (some "a/b:c") = some "abc" ∧
    filename_filter none = none ∧
    ∀ s : String, filename_filter (some s) =
      some ⟨s.data.filter (fun c => decide (c ∉ blacklist))⟩ :=
  ⟨by decide, rfl, filename_filter_some⟩

/-- C10: `filename_filter` is idempotent, and no character of its output is
blacklisted. -/
theorem claim_C10_filename_filter_idem :
    (∀ o : Option String,
       filename_filter (filename_filter o) = filename_filter o) ∧
    (∀ s : String,
       (filename_filter (some s)).map
         (fun t => t.data.all (fun c => !blacklist.contains c)) = some true) := by
  constructor
  · intro o
    match o with
    | none => rfl
    | some s =>
      rw [filename_filter_some, filename_filter_some]
      simp [List.filter_filter]
  · intro s
    rw [filename_filter_some]
    simp [List.all_eq_true, List.mem_filter]

/-- C9: `list_filenames` pairs the n-th layout file name with the n-th
programs file name (a positional zip of the two filtered listings), and raises
an unhandled `IndexError` exactly when the directory holds more
`*_layout.json` names than `*_programs.json` names. -/
theorem claim_C9_list_filenames (fs : List String) :
    list_filenames fs =
      if (fs.filter searchLayout).length ≤ (fs.filter searchProgs).length
      then .ok ((fs.filter searchLayout).zip (fs.filter searchProgs))
      else .error .indexError :=
  list_filenames_eq fs

/-- C4: the guards inside `main.delete` are inverted with respect to the rm
command's own help texts: with `--layout-only` (whose help reads "Only delete
saved layout.") the *programs* file is unlinked and the layout file survives,
and with `--programs-only` the *layout* file is unlinked and the programs file
survives.  This theorem evaluates the code at the failing input. -/
theorem claim_C4_rm_target_inverted :
    removeWorkspaceFiles
        ["workspace_1_layout.json", "workspace_1_programs.json"] "1"
        (some "layout_only") =
      (["workspace_1_layout.json"], none) ∧
    removeWorkspaceFiles
        ["workspace_1_layout.json", "workspace_1_programs.json"] "1"
        (some "programs_only") =
      (["workspace_1_programs.json"], none) := by
  constructor <;> decide

/-- C5 counterexample: a best-effort session clear CAN fail when a single
target snapshot file is absent: with `workspace_2_programs.json` missing next
to an existing `workspace_2_layout.json`, `clear_directory` raises an
unhandled `IndexError`. -/
theorem claim_C5_counterexample :
    (clear_directory
        ["workspace_1_layout.json", "workspace_1_programs.json",
         "workspace_2_layout.json"] none).2 = some PyExn.indexError := by
  decide

/-- C5 amended: a session clear does not fail when an entire snapshot pair is
absent (absent files are simply not listed), and it never unlinks a missing
file, but it raises an unhandled `IndexError` as soon as the directory holds
more `*_layout.json` files than `*_programs.json` files; `rm` on an
explicitly named single workspace raises `FileNotFoundError` when one of that
workspace's files is missing. -/
theorem claim_C5_rm_failure_modes :
    (∀ (files : List String) (target : Option String), files.Nodup →
       (∀ f ∈ files, (searchLayout f && searchProgs f) = false) →
       if (files.filter searchLayout).length ≤
           (files.filter searchProgs).length
       then (clear_directory files target).2 = none
       else (clear_directory files target).2 = some PyExn.indexError) ∧
    (∀ (files : List String) (workspace_id : String),
       layoutFilename workspace_id ∉ files ∨
         programsFilename workspace_id ∉ files →
       (removeWorkspaceFiles files workspace_id none).2 =
         some PyExn.fileNotFoundError) := by
  constructor
  · exact fun files target => clear_directory_spec files target
  · intro files workspace_id h
    by_cases hpf : programsFilename workspace_id ∈ files
    · have hlf : layoutFilename workspace_id ∉ files := by
        rcases h with h | h
        · exact h
        · exact absurd hpf h
      have hlf1 : layoutFilename workspace_id ∉
          files.erase (programsFilename workspace_id) :=
        fun hc => hlf (List.mem_of_mem_erase hc)
      simp [removeWorkspaceFiles, delete, unlinkSt, hpf, hlf1]
    · simp [removeWorkspaceFiles, delete, unlinkSt, hpf]

/-- Witness for C5: a directory holding exactly one aligned snapshot pair is
cleared without error, and removing the never-saved workspace `1` from an
empty directory raises `FileNotFoundError`. -/
theorem claim_C5_rm_failure_modes_witness :
    (clear_directory
        ["workspace_1_layout.json", "workspace_1_programs.json"] none).2 =
      none ∧
    (removeWorkspaceFiles [] "1" none).2 = some PyExn.fileNotFoundError := by
  constructor
  · have h := claim_C5_rm_failure_modes.1
      ["workspace_1_layout.json", "workspace_1_programs.json"] none
      (by decide) (by decide)
    rwa [if_pos (by decide)] at h
  · exact claim_C5_rm_failure_modes.2 [] "1" (Or.inl (by decide))

/-- C2 counterexample: restoring a snapshot whose layout document carries no
workspace name does NOT fall back to any caller-specified identifier: the
orchestrator prints `Workspace name not found.` and exits with code 1, and no
workspace-switch command is issued. -/
theorem claim_C2_counterexample :
    restore_workspace (some ⟨none⟩) none false =
      ([.eprintMsg "Workspace name not found."], .exited 1) := by
  decide

/-- C2 amended: for every restore of a snapshot whose layout document carries
no workspace name, `restore_workspace` reports `Workspace name not found.` to
stderr and exits with code 1; the workspace-switch step does not proceed and
there is no fallback identifier. -/
theorem claim_C2_no_name_exits (target : Option String) (clear : Bool) :
    restore_workspace (some ⟨none⟩) target clear =
      ([.eprintMsg "Workspace name not found."], .exited 1) :=
  rfl

/-- C3 counterexample: `save` invoked with neither `--workspace` nor
`--session` but with `--clear` on an existing directory still reports the
usage error and exits 1, yet the snapshot directory has been created
(`mkdirP` is in the trace) and the pre-existing snapshot files have been
cleared (the final directory is empty) before the error is raised. -/
theorem claim_C3_counterexample :
    save_workspace false false true none true
        ["workspace_1_layout.json", "workspace_1_programs.json"] [] "focused"
        [] =
      ([.mkdirP,
        .eprintMsg "Either --workspace or --session should be specified."],
       .exited 1, []) := by
  decide

/-- C3 amended: `save` with neither selector reports the usage error to
stderr and exits 1, but only after creating the snapshot directory, and — when
`--clear` is set on an existing directory — after clearing the previous
snapshot files. -/
theorem claim_C3_usage_error_after_mkdir_and_clear :
    (∀ (target : Option String) (dirExists : Bool) (dirFiles args : List String)
       (focusedName : String) (sessionList : List String),
       save_workspace false false false target dirExists dirFiles args
           focusedName sessionList =
         ([.mkdirP,
           .eprintMsg "Either --workspace or --session should be specified."],
          .exited 1, dirFiles)) ∧
    (∀ (target : Option String) (dirFiles args : List String)
       (focusedName : String) (sessionList cleared : List String),
       clear_directory dirFiles target = (cleared, none) →
       save_workspace false false true target true dirFiles args focusedName
           sessionList =
         ([.mkdirP,
           .eprintMsg "Either --workspace or --session should be specified."],
          .exited 1, cleared)) := by
  constructor
  · intro target dirExists dirFiles args focusedName sessionList
    rfl
  · intro target dirFiles args focusedName sessionList cleared h
    simp [save_workspace, h]

/-- Witness for C3: the amended statement at concrete inputs. -/
theorem claim_C3_usage_error_witness :
    save_workspace false false false none true ["workspace_9_layout.json"] []
        "focused" [] =
      ([.mkdirP,
        .eprintMsg "Either --workspace or --session should be specified."],
       .exited 1, ["workspace_9_layout.json"]) ∧
    save_workspace false false true none true
        ["workspace_2_layout.json", "workspace_2_programs.json"] [] "focused"
        [] =
      ([.mkdirP,
        .eprintMsg "Either --workspace or --session should be specified."],
       .exited 1, []) :=
  ⟨claim_C3_usage_error_after_mkdir_and_clear.1 none true
      ["workspace_9_layout.json"] [] "focused" [],
   claim_C3_usage_error_after_mkdir_and_clear.2 none
      ["workspace_2_layout.json", "workspace_2_programs.json"] [] "focused" []
      [] (by decide)⟩

/-- The C1 scenario's session directory: three workspace snapshots, the
second one's layout file being corrupted JSON. -/
def corruptSessionFiles : List (Except Unit LayoutDoc × Except Unit Unit) :=
  [(.ok ⟨some "1"⟩, .ok ()), (.error (), .ok ()), (.ok ⟨some "3"⟩, .ok ())]

/-- The whole-session restore run over `corruptSessionFiles` with default
options. -/
def corruptSessionRun : List Eff × Outcome :=
  restore_workspaces false true false false none false "focused" "0" []
    corruptSessionFiles (fun _ => none)

/-- C1 counterexample: in a whole-session restore where the second of three
snapshot layout files is corrupted JSON, the first workspace is restored and
the run aborts with an uncaught `json.JSONDecodeError` (non-zero exit), but
the third workspace — whose files are intact — is NOT restored, contradicting
the claim that every other workspace still completes restoration. -/
theorem claim_C1_counterexample :
    corruptSessionRun.2 = .pyError .jsonDecodeError ∧
    Eff.layoutRestore "1" ∈ corruptSessionRun.1 ∧
    Eff.programsRestore "1" false ∈ corruptSessionRun.1 ∧
    Eff.layoutRestore "3" ∉ corruptSessionRun.1 ∧
    Eff.programsRestore "3" false ∉ corruptSessionRun.1 := by
  decide

/-- The per-workspace effect block of a successful default-target session
restore of a snapshot named `nm`. -/
def goodRestoreBlock (clear : Bool) (nm : String) : List Eff :=
  [.readLayoutFile, .readProgramsFile, .i3cmd (workspaceSwitchCmd nm),
   .layoutRestore nm, .programsRestore nm clear]

/-- A well-formed session snapshot whose layout document is named `nm`. -/
def goodSessionFile (nm : String) :
    Except Unit LayoutDoc × Except Unit Unit :=
  (.ok ⟨some nm⟩, .ok ())

theorem restoreSessionLoop_corrupt (clear : Bool)
    (post : List (Except Unit LayoutDoc × Except Unit Unit))
    (pp : Except Unit Unit) :
    ∀ names : List String,
      restoreSessionLoop (names.map goodSessionFile ++
          (Except.error (), pp) :: post) none clear =
        (names.flatMap (goodRestoreBlock clear) ++ [.readLayoutFile],
         .pyError .jsonDecodeError) := by
  intro names
  induction names with
  | nil => rfl
  | cons nm rest ih =>
    simp only [List.map_cons, List.cons_append, goodSessionFile]
    rw [restoreSessionLoop]
    simp only [restore_workspace, ih]
    simp [goodRestoreBlock]

/-- C1 amended: during a whole-session restore with default options, a
malformed or unreadable snapshot layout file raises an uncaught
`json.JSONDecodeError` that aborts the entire session restore (non-zero
exit): every workspace whose files precede the malformed file in the
directory listing is restored, and no workspace after it is restored —
regardless of the focus flag and of the workspace arguments. -/
theorem claim_C1_session_restore_aborts (names : List String)
    (post : List (Except Unit LayoutDoc × Except Unit Unit))
    (pp : Except Unit Unit) (workspace numeric focus clear : Bool)
    (focused focusedNum : String) (wss : List String)
    (readLayout : String → Option LayoutDoc) :
    restore_workspaces workspace true numeric focus none clear focused
        focusedNum wss
        (names.map goodSessionFile ++ (Except.error (), pp) :: post)
        readLayout =
      (names.flatMap (goodRestoreBlock clear) ++ [.readLayoutFile],
       .pyError .jsonDecodeError) := by
  rw [restore_workspaces]
  simp [restoreSessionLoop_corrupt]

/-! ## Shape of the effects a restore run can emit -/

/-- The effects that a `restore` invocation with the given `target` can put in
its trace: every window-manager command is a `workspaceSwitchCmd`, programs
files are read and programs restored only when `target` is not layout-only,
layouts restored only when `target` is not programs-only. -/
def EffShape (target : Option String) (e : Eff) : Prop :=
  (∃ nm, e = .i3cmd (workspaceSwitchCmd nm)) ∨
  e = .readLayoutFile ∨
  (target ≠ some "layout_only" ∧ e = .readProgramsFile) ∨
  (∃ w, e = .readLayoutWs w) ∨
  (target ≠ some "layout_only" ∧ ∃ w, e = .readProgramsWs w) ∨
  (target ≠ some "programs_only" ∧ ∃ w, e = .layoutRestore w) ∨
  (target ≠ some "layout_only" ∧ ∃ w c, e = .programsRestore w c) ∨
  (∃ m, e = .eprintMsg m) ∨
  e = .sleep

theorem restore_workspace_shape (l : Option LayoutDoc)
    (target : Option String) (clear : Bool) :
    ∀ e ∈ (restore_workspace l target clear).1, EffShape target e := by
  intro e he
  match l with
  | none => simp [restore_workspace] at he
  | some ⟨none⟩ =>
    simp [restore_workspace] at he
    subst he
    simp [EffShape]
  | some ⟨some nm⟩ =>
    rw [restore_workspace] at he
    simp only [List.mem_append, List.mem_singleton] at he
    rcases he with (he | he) | he
    · subst he
      exact Or.inl ⟨nm, rfl⟩
    · by_cases hp : target = some "programs_only"
      · rw [if_neg (by simp [hp])] at he
        simp at he
      · rw [if_pos (by simp [hp])] at he
        simp at he
        subst he
        simp [EffShape, hp]
    · by_cases hl : target = some "layout_only"
      · rw [if_neg (by simp [hl])] at he
        simp at he
      · rw [if_pos (by simp [hl])] at he
        simp at he
        subst he
        simp [EffShape, hl]

theorem restoreSessionLoop_shape (target : Option String) (clear : Bool) :
    ∀ (files : List (Except Unit LayoutDoc × Except Unit Unit)),
      ∀ e ∈ (restoreSessionLoop files target clear).1, EffShape target e := by
  intro files
  induction files with
  | nil => intro e he; simp [restoreSessionLoop] at he
  | cons f rest ih =>
    obtain ⟨lf, pf⟩ := f
    intro e he
    rcases hloop : restoreSessionLoop rest target clear with ⟨t', o'⟩
    rcases lf with u | d
    · simp [restoreSessionLoop] at he
      subst he
      simp [EffShape]
    · rcases hrw : restore_workspace (some d) target clear with ⟨t, o⟩
      have hmem : ∀ x ∈ t, EffShape target x := by
        intro x hx
        exact restore_workspace_shape (some d) target clear x
          (by rw [hrw]; exact hx)
      have hmem' : ∀ x ∈ t', EffShape target x := by
        intro x hx
        exact ih x (by rw [hloop]; exact hx)
      by_cases hl : target = some "layout_only"
      · subst hl
        rcases o with _ | n | x
        · simp only [restoreSessionLoop, hrw, hloop] at he
          simp at he
          rcases he with he | he | he
          · subst he; simp [EffShape]
          · exact hmem e he
          · exact hmem' e he
        · simp only [restoreSessionLoop, hrw, hloop] at he
          simp at he
          rcases he with he | he
          · subst he; simp [EffShape]
          · exact hmem e he
        · simp only [restoreSessionLoop, hrw, hloop] at he
          simp at he
          rcases he with he | he
          · subst he; simp [EffShape]
          · exact hmem e he
      · rcases pf with v | v
        · simp only [restoreSessionLoop, hrw, hloop] at he
          simp [hl] at he
          rcases he with he | he
          · subst he; simp [EffShape]
          · subst he; simp [EffShape, hl]
        · rcases o with _ | n | x
          · simp only [restoreSessionLoop, hrw, hloop] at he
            simp [hl] at he
            rcases he with he | he | he | he
            · subst he; simp [EffShape]
            · subst he; simp [EffShape, hl]
            · exact hmem e he
            · exact hmem' e he
          · simp only [restoreSessionLoop, hrw, hloop] at he
            simp [hl] at he
            rcases he with he | he | he
            · subst he; simp [EffShape]
            · subst he; simp [EffShape, hl]
            · exact hmem e he
          · simp only [restoreSessionLoop, hrw, hloop] at he
            simp [hl] at he
            rcases he with he | he | he
            · subst he; simp [EffShape]
            · subst he; simp [EffShape, hl]
            · exact hmem e he

theorem restoreSingleLoop_shape (numeric : Bool)
    (readLayout : String → Option LayoutDoc) (target : Option String)
    (clear : Bool) :
    ∀ (ws : List String),
      ∀ e ∈ (restoreSingleLoop ws numeric readLayout target clear).1,
        EffShape target e := by
  intro ws
  induction ws with
  | nil => intro e he; simp [restoreSingleLoop] at he
  | cons w rest ih =>
    intro e he
    rcases hloop : restoreSingleLoop rest numeric readLayout target clear
      with ⟨t', o'⟩
    rcases hrw : restore_workspace (readLayout w) target clear with ⟨t, o⟩
    have hmem : ∀ x ∈ t, EffShape target x := by
      intro x hx
      exact restore_workspace_shape (readLayout w) target clear x
        (by rw [hrw]; exact hx)
    have hmem' : ∀ x ∈ t', EffShape target x := by
      intro x hx
      exact ih x (by rw [hloop]; exact hx)
    by_cases hd : numeric && !isdigit w
    · simp only [restoreSingleLoop, hd] at he
      simp at he
      subst he
      simp [EffShape]
    · by_cases hl : target = some "layout_only"
      · subst hl
        rcases o with _ | n | x
        · simp only [restoreSingleLoop, hd, hrw, hloop] at he
          simp at he
          rcases he with he | he | he
          · subst he; simp [EffShape]
          · exact hmem e he
          · exact hmem' e he
        · simp only [restoreSingleLoop, hd, hrw, hloop] at he
          simp at he
          rcases he with he | he
          · subst he; simp [EffShape]
          · exact hmem e he
        · simp only [restoreSingleLoop, hd, hrw, hloop] at he
          simp at he
          rcases he with he | he
          · subst he; simp [EffShape]
          · exact hmem e he
      · rcases o with _ | n | x
        · simp only [restoreSingleLoop, hd, hrw, hloop] at he
          simp [hl] at he
          rcases he with he | he | he | he
          · subst he; simp [EffShape]
          · subst he; simp [EffShape, hl]
          · exact hmem e he
          · exact hmem' e he
        · simp only [restoreSingleLoop, hd, hrw, hloop] at he
          simp [hl] at he
          rcases he with he | he | he
          · subst he; simp [EffShape]
          · subst he; simp [EffShape, hl]
          · exact hmem e he
        · simp only [restoreSingleLoop, hd, hrw, hloop] at he
          simp [hl] at he
          rcases he with he | he | he
          · subst he; simp [EffShape]
          · subst he; simp [EffShape, hl]
          · exact hmem e he

/-- Every effect of a full `restore` run has the shape `EffShape target`. -/
theorem restore_workspaces_shape (workspace session numeric focus : Bool)
    (target : Option String) (clear : Bool)
    (focused_workspace focusedNum : String) (workspaces : List String)
    (sessionFiles : List (Except Unit LayoutDoc × Except Unit Unit))
    (readLayout : String → Option LayoutDoc) :
    ∀ e ∈ (restore_workspaces workspace session numeric focus target clear
        focused_workspace focusedNum workspaces sessionFiles readLayout).1,
      EffShape target e := by
  intro e he
  by_cases hs : session
  · rcases hc : restoreSessionLoop sessionFiles target clear with ⟨t, o⟩
    have hmem : ∀ x ∈ t, EffShape target x := fun x hx =>
      restoreSessionLoop_shape target clear sessionFiles x
        (by rw [hc]; exact hx)
    rcases o with _ | n | x
    · by_cases hf : focus
      · simp only [restore_workspaces, hs, hc, hf] at he
        simp at he
        rcases he with he | he | he
        · exact hmem e he
        · subst he; simp [EffShape]
        · subst he; exact Or.inl ⟨focused_workspace, rfl⟩
      · simp only [restore_workspaces, hs, hc, hf] at he
        simp at he
        exact hmem e he
    · simp only [restore_workspaces, hs, hc] at he
      exact hmem e he
    · simp only [restore_workspaces, hs, hc] at he
      exact hmem e he
  · by_cases hw : workspace
    · rcases hc : restoreSingleLoop
        (if workspaces.isEmpty then
          [if numeric then focusedNum else focused_workspace]
         else workspaces) numeric readLayout target clear with ⟨t, o⟩
      have hmem : ∀ x ∈ t, EffShape target x := fun x hx =>
        restoreSingleLoop_shape numeric readLayout target clear _ x
          (by rw [hc]; exact hx)
      rcases o with _ | n | x
      · by_cases hf : focus
        · simp only [restore_workspaces, hs, hw, hc, hf] at he
          simp at he
          rcases he with he | he | he
          · exact hmem e he
          · subst he; simp [EffShape]
          · subst he; exact Or.inl ⟨focused_workspace, rfl⟩
        · simp only [restore_workspaces, hs, hw, hc, hf] at he
          simp at he
          exact hmem e he
      · simp only [restore_workspaces, hs, hw, hc] at he
        exact hmem e he
      · simp only [restore_workspaces, hs, hw, hc] at he
        exact hmem e he
    · simp only [restore_workspaces, hs, hw] at he
      simp at he
      subst he
      simp [EffShape]

/-- Membership in a conditional singleton list forces equality. -/
theorem mem_ite_singleton {α : Type} {a x : α} {p : Prop} [Decidable p]
    (h : a ∈ (if p then [x] else ([] : List α))) : a = x := by
  split at h
  · simpa using h
  · simp at h

/-- The no-auto-back-and-forth flag occurs verbatim in every plain workspace
switch command. -/
theorem flag_infix_switch (nm : String) :
    noAutoBackAndForthFlag.data <:+: (workspaceSwitchCmd nm).data := by
  refine ⟨"workspace ".data, " ".data ++ nm.data, ?_⟩
  have hhead : "workspace ".data ++ noAutoBackAndForthFlag.data ++ " ".data =
      "workspace --no-auto-back-and-forth ".data := by decide
  rw [workspaceSwitchCmd, String.data_append, ← hhead]
  simp [List.append_assoc]

/-- The no-auto-back-and-forth flag occurs verbatim in the numeric workspace
switch command of `load`. -/
theorem flag_infix_switch_numeric (nm : String) :
    noAutoBackAndForthFlag.data <:+: (workspaceSwitchCmdNumeric nm).data := by
  refine ⟨"workspace ".data,
    " number                 ".data ++ nm.data, ?_⟩
  have hhead : "workspace ".data ++ noAutoBackAndForthFlag.data ++
      " number                 ".data =
      "workspace --no-auto-back-and-forth number                 ".data := by
    decide
  rw [workspaceSwitchCmdNumeric, String.data_append, ← hhead]
  simp [List.append_assoc]

/-- Every window-manager command issued by `load` is one of the two workspace
switch commands. -/
theorem load_workspaces_cmds (workspace numeric : Bool)
    (target : Option String) (workspace_layout : String)
    (target_workspaceArg : Option String) (focusedName focusedNum : String)
    (readLayout : Option LayoutDoc) (clear : Bool) (c : String)
    (h : Eff.i3cmd c ∈ (load_workspaces workspace numeric target
        workspace_layout target_workspaceArg focusedName focusedNum
        readLayout clear).1) :
    (∃ nm, c = workspaceSwitchCmd nm) ∨
    (∃ nm, c = workspaceSwitchCmdNumeric nm) := by
  by_cases hn : numeric
  · by_cases hd : isdigit workspace_layout
    · have hmain : ∀ (tw : String), Eff.i3cmd c ∈
          ([Eff.readLayoutWs workspace_layout] ++
            (if target ≠ some "layout_only"
             then [Eff.readProgramsWs workspace_layout] else []) ++
            [Eff.i3cmd (workspaceSwitchCmdNumeric tw)] ++
            (if target ≠ some "programs_only"
             then [Eff.layoutRestore tw] else []) ++
            (if target ≠ some "layout_only"
             then [Eff.programsRestore tw clear] else [])) →
          (∃ nm, c = workspaceSwitchCmd nm) ∨
          (∃ nm, c = workspaceSwitchCmdNumeric nm) := by
        intro tw hm
        simp only [List.append_assoc, List.mem_append, List.mem_singleton]
          at hm
        rcases hm with hm | hm | hm | hm | hm
        · simp at hm
        · have := mem_ite_singleton hm; simp at this
        · exact Or.inr ⟨tw, Eff.i3cmd.inj hm⟩
        · have := mem_ite_singleton hm; simp at this
        · have := mem_ite_singleton hm; simp at this
      rcases target_workspaceArg with _ | t
      · by_cases hw : workspace
        · rcases readLayout with _ | d
          · simp [load_workspaces, hn, hd, hw] at h
          · simp only [load_workspaces, hn, hd, hw] at h
            simp only [Bool.and_self, Bool.not_true, Bool.and_false,
              Bool.false_eq_true, if_false, if_true, Bool.not_false] at h
            exact hmain focusedNum (by simpa using h)
        · simp [load_workspaces, hn, hd, hw] at h
      · by_cases hdt : isdigit t
        · by_cases hw : workspace
          · rcases readLayout with _ | d
            · simp [load_workspaces, hn, hd, hdt, hw] at h
            · simp only [load_workspaces, hn, hd, hdt, hw] at h
              simp only [Bool.and_self, Bool.not_true, Bool.and_false,
                Bool.false_eq_true, if_false, if_true, Bool.not_false] at h
              exact hmain t (by simpa [hdt] using h)
          · simp [load_workspaces, hn, hd, hdt, hw] at h
        · simp [load_workspaces, hn, hd, hdt] at h
    · simp [load_workspaces, hn, hd] at h
  · by_cases hw : workspace
    · rcases readLayout with _ | d
      · simp [load_workspaces, hn, hw] at h
      · simp only [load_workspaces, hn, hw] at h
        simp only [Bool.false_and, Bool.not_true, Bool.false_eq_true,
          if_false, if_true] at h
        simp only [List.append_assoc, List.mem_append, List.mem_singleton]
          at h
        rcases h with h | h | h | h | h
        · simp at h
        · have := mem_ite_singleton h; simp at this
        · exact Or.inl ⟨focusedName, Eff.i3cmd.inj h⟩
        · have := mem_ite_singleton h; simp at this
        · have := mem_ite_singleton h; simp at this
    · simp [load_workspaces, hn, hw] at h

/-- C6: every workspace-switch command issued during restore (including its
focus-restoration step) and during load carries the
`--no-auto-back-and-forth` flag, so re-issuing the switch leaves the focused
workspace's back-and-forth history unchanged. -/
theorem claim_C6_no_auto_back_and_forth :
    (∀ (workspace session numeric focus : Bool) (target : Option String)
       (clear : Bool) (focused focusedNum : String) (wss : List String)
       (sessionFiles : List (Except Unit LayoutDoc × Except Unit Unit))
       (readLayout : String → Option LayoutDoc) (c : String),
       Eff.i3cmd c ∈ (restore_workspaces workspace session numeric focus
           target clear focused focusedNum wss sessionFiles readLayout).1 →
       noAutoBackAndForthFlag.data <:+: c.data) ∧
    (∀ (workspace numeric : Bool) (target : Option String)
       (workspace_layout : String) (target_workspaceArg : Option String)
       (focusedName focusedNum : String) (readLayout : Option LayoutDoc)
       (clear : Bool) (c : String),
       Eff.i3cmd c ∈ (load_workspaces workspace numeric target
           workspace_layout target_workspaceArg focusedName focusedNum
           readLayout clear).1 →
       noAutoBackAndForthFlag.data <:+: c.data) := by
  constructor
  · intro workspace session numeric focus target clear focused focusedNum wss
      sessionFiles readLayout c h
    have hs := restore_workspaces_shape workspace session numeric focus target
      clear focused focusedNum wss sessionFiles readLayout _ h
    rcases hs with ⟨nm, hq⟩ | hq | ⟨_, hq⟩ | ⟨w, hq⟩ | ⟨_, w, hq⟩ |
      ⟨_, w, hq⟩ | ⟨_, w, cl, hq⟩ | ⟨m, hq⟩ | hq <;>
      first
      | (rw [Eff.i3cmd.inj hq]; exact flag_infix_switch nm)
      | simp at hq
  · intro workspace numeric target workspace_layout target_workspaceArg
      focusedName focusedNum readLayout clear c h
    rcases load_workspaces_cmds workspace numeric target workspace_layout
        target_workspaceArg focusedName focusedNum readLayout clear c h with
      ⟨nm, hq⟩ | ⟨nm, hq⟩
    · rw [hq]; exact flag_infix_switch nm
    · rw [hq]; exact flag_infix_switch_numeric nm

/-- Witness for C6: a concrete one-snapshot session restore issues a switch
command, and that command contains the flag. -/
theorem claim_C6_no_auto_back_and_forth_witness :
    Eff.i3cmd (workspaceSwitchCmd "2") ∈
      (restore_workspaces false true false false none false "f" "0" []
        [(Except.ok ⟨some "2"⟩, Except.ok ())] (fun _ => none)).1 ∧
    noAutoBackAndForthFlag.data <:+: (workspaceSwitchCmd "2").data :=
  ⟨by decide,
   claim_C6_no_auto_back_and_forth.1 false true false false none false "f"
     "0" [] [(Except.ok ⟨some "2"⟩, Except.ok ())] (fun _ => none)
     (workspaceSwitchCmd "2") (by decide)⟩

/-- Is this effect a layout restoration (`layout.restore`)? -/
def isLayoutRestoreEff : Eff → Bool
  | .layoutRestore _ => true
  | _ => false

/-- Is this effect a programs restoration (`programs.restore`)? -/
def isProgramsRestoreEff : Eff → Bool
  | .programsRestore _ _ => true
  | _ => false

/-- Is this effect a read of a programs file (`programs.read` or the session
branch's `json.loads(programs_file.read_text())`)? -/
def isProgramsReadEff : Eff → Bool
  | .readProgramsFile => true
  | .readProgramsWs _ => true
  | _ => false

/-- C7: a restore invoked with `--programs-only` never injects a layout, and
one invoked with `--layout-only` never reads a programs file and never
launches programs — over both the session branch and the single-workspace
branch, for all inputs. -/
theorem claim_C7_target_restricts_restore :
    (∀ (workspace session numeric focus clear : Bool)
       (focused focusedNum : String) (wss : List String)
       (sessionFiles : List (Except Unit LayoutDoc × Except Unit Unit))
       (readLayout : String → Option LayoutDoc),
       ((restore_workspaces workspace session numeric focus
           (some "programs_only") clear focused focusedNum wss sessionFiles
           readLayout).1.all (fun e => !isLayoutRestoreEff e)) = true) ∧
    (∀ (workspace session numeric focus clear : Bool)
       (focused focusedNum : String) (wss : List String)
       (sessionFiles : List (Except Unit LayoutDoc × Except Unit Unit))
       (readLayout : String → Option LayoutDoc),
       ((restore_workspaces workspace session numeric focus
           (some "layout_only") clear focused focusedNum wss sessionFiles
           readLayout).1.all
         (fun e => !(isProgramsRestoreEff e || isProgramsReadEff e))) =
         true) := by
  constructor
  · intro workspace session numeric focus clear focused focusedNum wss
      sessionFiles readLayout
    refine List.all_eq_true.mpr ?_
    intro e he
    have hs := restore_workspaces_shape workspace session numeric focus
      (some "programs_only") clear focused focusedNum wss sessionFiles
      readLayout e he
    rcases hs with ⟨nm, rfl⟩ | rfl | ⟨hne, rfl⟩ | ⟨w, rfl⟩ | ⟨hne, w, rfl⟩ |
      ⟨hne, w, rfl⟩ | ⟨hne, w, cl, rfl⟩ | ⟨m, rfl⟩ | rfl <;>
      first
      | rfl
      | exact absurd rfl hne
  · intro workspace session numeric focus clear focused focusedNum wss
      sessionFiles readLayout
    refine List.all_eq_true.mpr ?_
    intro e he
    have hs := restore_workspaces_shape workspace session numeric focus
      (some "layout_only") clear focused focusedNum wss sessionFiles
      readLayout e he
    rcases hs with ⟨nm, rfl⟩ | rfl | ⟨hne, rfl⟩ | ⟨w, rfl⟩ | ⟨hne, w, rfl⟩ |
      ⟨hne, w, rfl⟩ | ⟨hne, w, cl, rfl⟩ | ⟨m, rfl⟩ | rfl <;>
      first
      | rfl
      | exact absurd rfl hne

end I3Resurrect
